import Mathlib

/-!
Verification of the pricing / reference-data / discount engine of the
`invoice_app` repository (`get_data.py`, `price_calculator.py`,
`create_pdf.py`, `create_invoice_EN.py`, `invoice_visual.py`).

Python floats are modelled as exact rationals (`ℚ`); CSV cells are modelled
by the three-way classification the source code actually branches on
(empty / numeric / non-numeric text); fallible code returns `Except`.
-/

namespace InvoiceApp

/-- A CSV cell as the Python code distinguishes them: an empty string
(falsy, `float` raises), a string that `float()` parses to a number, or a
nonempty string that `float()` rejects with `ValueError`. -/
inductive Cell where
  | empty : Cell
  | num : ℚ → Cell
  | text : Cell
deriving DecidableEq, Repr

/-- `bool(cell)` in Python: only the empty string is falsy. -/
def Cell.falsy : Cell → Bool
  | Cell.empty => true
  | _ => false

/-- `float(cell)` in Python: succeeds exactly on numeric cells; on an empty
or non-numeric cell it raises `ValueError` (`none`). -/
def Cell.parse : Cell → Option ℚ
  | Cell.num q => some q
  | _ => none

/-! ## Discount schedule loaders

Two distinct loaders read `discount.csv`.  The PDF generators
(`create_pdf.py` lines 454-463 and three more copies,
`create_invoice_EN.py` lines 363-372 and 619-628) run

    for row in reader:
        if len(row) >= 2:
            try:
                thresholds.append((float(row[0]), float(row[1])))
            except ValueError:
                continue

while `get_discount` in `get_data.py` (lines 234-244) runs

    for row in reader:
        if len(row) < 2 or not row[0] or not row[1]:
            continue
        try:
            price = float(row[0])
            pct = float(row[1])
        except ValueError:
            raise ValueError(f"Invalid discount entry: {row}")
        thresholds.append((price, pct))
-/

/-- Threshold loader of the PDF generators: keep a row iff it has at least
two fields and both parse; any `ValueError` skips the row. -/
def loadThresholdRowsGen : List (List Cell) → List (ℚ × ℚ)
  | [] => []
  | (a :: b :: _) :: rest =>
      match a.parse, b.parse with
      | some t, some p => (t, p) :: loadThresholdRowsGen rest
      | _, _ => loadThresholdRowsGen rest
  | [] :: rest => loadThresholdRowsGen rest
  | [_] :: rest => loadThresholdRowsGen rest

/-- Threshold loader of `get_discount` in `get_data.py`: skip short rows
and rows with an empty (falsy) cell, but raise `ValueError` on a row whose
nonempty cell is non-numeric. -/
def loadThresholdRowsGetData : List (List Cell) → Except String (List (ℚ × ℚ))
  | [] => Except.ok []
  | (a :: b :: _) :: rest =>
      if a.falsy || b.falsy then loadThresholdRowsGetData rest
      else
        match a.parse, b.parse with
        | some t, some p =>
            (loadThresholdRowsGetData rest).map (fun l => (t, p) :: l)
        | _, _ => Except.error "Invalid discount entry"
  | [] :: rest => loadThresholdRowsGetData rest
  | [_] :: rest => loadThresholdRowsGetData rest

/-- A row the generators' loader refuses to keep: shorter than two fields,
or one of the first two cells fails `float()`. -/
def genRowMalformed (row : List Cell) : Prop :=
  match row with
  | a :: b :: _ => a.parse = none ∨ b.parse = none
  | _ => True

/-- A row `get_discount`'s loader skips: shorter than two fields, or one
of the first two cells empty (falsy). -/
def getDataRowSkippable (row : List Cell) : Prop :=
  match row with
  | a :: b :: _ => a.falsy = true ∨ b.falsy = true
  | _ => True

/-- A row `get_discount`'s loader handles without raising: short, or an
empty cell among the first two, or both of the first two cells numeric. -/
def getDataRowOk (row : List Cell) : Prop :=
  match row with
  | a :: b :: _ =>
      a.falsy = true ∨ b.falsy = true
        ∨ ((∃ q, a.parse = some q) ∧ (∃ q, b.parse = some q))
  | _ => True

/-! ## The single-rate lookup of `get_discount` -/

/-- `thresholds.sort(key=lambda x: x[0])`: sort the parsed rows ascending
by threshold. -/
def sortByFst (rows : List (ℚ × ℚ)) : List (ℚ × ℚ) :=
  List.insertionSort (fun a b => a.1 ≤ b.1) rows

/-- The scan of `get_discount` (`get_data.py` lines 252-258) over the
sorted thresholds: remember the percentage of every row whose threshold is
at most the order price, stop at the first row whose threshold exceeds
it. -/
def discountScan (price : ℚ) : List (ℚ × ℚ) → ℚ → ℚ
  | [], acc => acc
  | (t, p) :: rest, acc =>
      if price ≥ t then discountScan price rest p else acc

/-- `get_discount(order_price)` (`get_data.py` lines 246-260) after row
parsing: error when no thresholds were parsed, otherwise sort ascending by
threshold and scan starting from `0.0`. -/
def get_discount (rows : List (ℚ × ℚ)) (price : ℚ) : Except String ℚ :=
  match rows with
  | [] => Except.error "No discount thresholds found"
  | _ => Except.ok (discountScan price (sortByFst rows) 0)

/-! ## Tiered discount loops of the PDF generators

`create_pdf.py` (`generate_pdf_with_discount` lines 467-476 and the three
other copies at lines 766-774, 1443-1451, 1797-1805) and
`create_invoice_EN.py` (`generate_pdf_with_discount_and_added_value`
lines 632-639) all run the same loop over the sorted threshold list with a
`(0.0, 0.0)` entry inserted at the front:

    discount_amount = 0.0
    for i in range(len(thresholds)):
        min_price, pct = thresholds[i]
        next_price = thresholds[i+1][0] if i+1 < len(thresholds) else total_price_all
        if total_price_all > min_price:
            segment = min(total_price_all, next_price) - min_price
        else:
            segment = 0.0
        discount_amount += segment * (pct / 100.0)
-/

/-- One pass of the correct tiered-discount loop body, recursing down the
threshold list; the `next_price` of the current row is the threshold of the
following row, or the subtotal itself for the last row. -/
def tieredLoop (s : ℚ) : List (ℚ × ℚ) → ℚ
  | [] => 0
  | (t, p) :: rest =>
      let next : ℚ := match rest with
        | [] => s
        | (t2, _) :: _ => t2
      (if s > t then min s next - t else 0) * (p / 100) + tieredLoop s rest

/-- Tiered discount amount computed by `generate_pdf_with_discount` in
`create_pdf.py` (lines 464-476) and by
`generate_pdf_with_discount_and_added_value` in `create_invoice_EN.py`
(lines 629-639): sort rows by threshold, insert the `(0,0)` floor, run the
bracket loop. -/
def tieredDiscountAmount (rows : List (ℚ × ℚ)) (s : ℚ) : ℚ :=
  tieredLoop s ((0, 0) :: sortByFst rows)

/-- The buggy tiered loop of `generate_pdf_with_discount` in
`create_invoice_EN.py` (lines 377-382).  There the accumulation line

    if total_price_all > min_price:          segment = min(total_price_all, next_price) - min_price
    discount_amount += segment * (pct / 100.0)

is OUTSIDE the `if`: it always executes, reusing the `segment` of an
earlier iteration when the guard is false, and raising
`UnboundLocalError` (modelled as `none`) when no iteration has assigned
`segment` yet. -/
def tieredLoopEN (s : ℚ) : List (ℚ × ℚ) → Option ℚ → ℚ → Option ℚ
  | [], _, acc => some acc
  | (t, p) :: rest, seg, acc =>
      let next : ℚ := match rest with
        | [] => s
        | (t2, _) :: _ => t2
      let seg' : Option ℚ := if s > t then some (min s next - t) else seg
      match seg' with
      | none => none
      | some v => tieredLoopEN s rest seg' (acc + v * (p / 100))

/-- Tiered discount amount computed by `generate_pdf_with_discount` in
`create_invoice_EN.py` (lines 360-382): same sort and `(0,0)` insertion,
then the buggy loop. -/
def tieredDiscountAmountEN (rows : List (ℚ × ℚ)) (s : ℚ) : Option ℚ :=
  tieredLoopEN s ((0, 0) :: sortByFst rows) none 0

/-- The progressive bracket sum exactly as the spec describes it: bracket
`i` with lower bound `minPrice_i` and rate `pct_i` contributes
`(min(subtotal, nextThreshold_i) - minPrice_i) * pct_i / 100` when
`subtotal > minPrice_i` and `0` otherwise, where `nextThreshold_i` is the
next bracket's threshold, or the subtotal itself for the last bracket.
Stated from the spec's words for comparison with `tieredDiscountAmount`. -/
def bracketSumSpec (schedule : List (ℚ × ℚ)) (s : ℚ) : ℚ :=
  ((schedule.zip ((schedule.map Prod.fst).drop 1 ++ [s])).map
    (fun x => if s > x.1.1 then (min s x.2 - x.1.1) * x.1.2 / 100 else 0)).sum

/-! ## Custom discount and value-added surcharge -/

/-- Custom discount amount of `generate_pdf_with_custom_discount`
(`create_invoice_EN.py` lines 499-502, `create_pdf.py` lines 613-616 and
their `_and_added_value` variants):

    if discount <= 100:
        discount_amount = total_price_all * (discount / 100.0)
    else:
        discount_amount = discount
-/
def customDiscountAmount (discount s : ℚ) : ℚ :=
  if discount ≤ 100 then s * (discount / 100) else discount

/-- Final total of `generate_pdf_with_discount_and_added_value` in
`create_invoice_EN.py` (lines 633-660): tiered discount, then
`net_amount = total_price_all - discount_amount`,
`added_value_amount = net_amount * 0.10`,
`final_total = net_amount + added_value_amount`. -/
def finalTotalTieredAddedValue (rows : List (ℚ × ℚ)) (s : ℚ) : ℚ :=
  let discount_amount := tieredDiscountAmount rows s
  let net_amount := s - discount_amount
  let added_value_amount := net_amount * (10 / 100)
  net_amount + added_value_amount

/-- Final total of `generate_pdf_with_custom_discount_and_added_value` in
`create_invoice_EN.py` (lines 756-776): custom discount, then the same
net / 10% added-value / final-total sequence. -/
def finalTotalCustomAddedValue (discount s : ℚ) : ℚ :=
  let discount_amount := customDiscountAmount discount s
  let net_amount := s - discount_amount
  let added_value_amount := net_amount * (10 / 100)
  net_amount + added_value_amount

/-! ## Pipe series table: `get_sdr_for` / `get_pn_for` (`get_data.py`)

Both lookups read `pipe_series_sdr.csv`: the first row is the header
(first cell blank, remaining cells SDR values), each later row is one
grade (first cell the grade name, remaining cells PN values).  Column `i`
of the parsed SDR list corresponds to position `i` of a grade row's PN
cells in both functions (`row[1:][i]` in `get_sdr_for`,
`row[sdr_list.index(sdr) + 1]` in `get_pn_for`). -/

/-- The pipe series CSV as the lookups see it: header cells after the
first blank cell, and one row per grade (grade name, then PN cells).  A
Python row that is empty or has an empty first cell is skipped by both
lookups; it is modelled as a row whose grade string is `""`, skipped the
same way. -/
structure SdrTable where
  header : List Cell
  rows : List (String × List Cell)

/-- Header parsing shared by both lookups (`get_data.py` lines 32-39 and
96-103): collect the numeric values of the nonempty header cells in
order, raising `ValueError` on a nonempty non-numeric one. -/
def parseHeader : List Cell → Except String (List ℚ)
  | [] => Except.ok []
  | Cell.empty :: rest => parseHeader rest
  | Cell.num q :: rest => (parseHeader rest).map (fun l => q :: l)
  | Cell.text :: _ => Except.error "Invalid SDR value in header"

/-- `str(pipe_grade).strip().upper()` normalization used for grade
matching: strip whitespace from both ends, then uppercase. -/
def normGrade (s : String) : String :=
  String.mk
    ((((s.data.dropWhile Char.isWhitespace).reverse.dropWhile
        Char.isWhitespace).reverse).map Char.toUpper)

/-- The grade-row predicate of the scan loops in `get_data.py` lines
48-51 / 116-119: the row is kept when its first cell is nonempty and
matches the requested grade after strip/upper. -/
def gradeMatches (g : String) (r : String × List Cell) : Bool :=
  !(r.1 == "") && (normGrade r.1 == normGrade g)

/-- The first row matching the requested grade; later rows with the same
grade are never consulted. -/
def findGradeRow (g : String) (rows : List (String × List Cell)) :
    Option (String × List Cell) :=
  rows.find? (gradeMatches g)

/-- The column scan of `get_sdr_for` (`get_data.py` lines 52-63):
enumerate the row's PN cells, skip empty cells and cells `float()`
rejects, and on the first cell equal to the requested PN return
`sdr_list[idx]` (an out-of-range index is a Python `IndexError`). -/
def scanCellsForPn (sdrList : List ℚ) (pn : ℚ) : Nat → List Cell → Except String ℚ
  | _, [] => Except.error "PN not found for grade"
  | idx, Cell.empty :: rest => scanCellsForPn sdrList pn (idx + 1) rest
  | idx, Cell.text :: rest => scanCellsForPn sdrList pn (idx + 1) rest
  | idx, Cell.num v :: rest =>
      if v = pn then
        match sdrList[idx]? with
        | some sdr => Except.ok sdr
        | none => Except.error "IndexError"
      else scanCellsForPn sdrList pn (idx + 1) rest

/-- `get_sdr_for(pipe_grade, pn)` (`get_data.py` lines 4-66) on the
parsed table: parse the header, locate the first matching grade row,
scan its cells for the PN. -/
def get_sdr_for (tbl : SdrTable) (grade : String) (pn : ℚ) : Except String ℚ :=
  match parseHeader tbl.header with
  | Except.error e => Except.error e
  | Except.ok sdrList =>
      match findGradeRow grade tbl.rows with
      | none => Except.error "Pipe grade not found"
      | some r => scanCellsForPn sdrList pn 0 r.2

/-- `sdr_list.index(sdr)` guarded by `sdr not in sdr_list`: the index of
the first occurrence, or `none`. -/
def idxOf? (x : ℚ) : List ℚ → Option Nat
  | [] => none
  | y :: rest => if y = x then some 0 else (idxOf? x rest).map (· + 1)

/-- `get_pn_for(pipe_grade, sdr)` (`get_data.py` lines 68-128) on the
parsed table: parse the header, find the SDR's column, locate the first
matching grade row, read the cell at that column (`row[col_idx]` with
`col_idx = sdr_list.index(sdr) + 1`, i.e. PN-cell position
`sdr_list.index(sdr)`): a missing or empty cell is a `ValueError`
("missing"), a non-numeric one a `ValueError` ("Invalid PN value"). -/
def get_pn_for (tbl : SdrTable) (grade : String) (sdr : ℚ) : Except String ℚ :=
  match parseHeader tbl.header with
  | Except.error e => Except.error e
  | Except.ok sdrList =>
      match idxOf? sdr sdrList with
      | none => Except.error "SDR not found"
      | some j =>
          match findGradeRow grade tbl.rows with
          | none => Except.error "Pipe grade not found"
          | some r =>
              match r.2[j]? with
              | some (Cell.num v) => Except.ok v
              | some Cell.text => Except.error "Invalid PN value"
              | some Cell.empty => Except.error "PN missing"
              | none => Except.error "PN missing"

/-- The index of the leftmost PN cell of a grade row that is numeric and
equal to the requested PN — the cell `get_sdr_for`'s scan stops at. -/
def leftmostPnMatch (pn : ℚ) : List Cell → Option Nat
  | [] => none
  | Cell.num v :: rest =>
      if v = pn then some 0 else (leftmostPnMatch pn rest).map (· + 1)
  | _ :: rest => (leftmostPnMatch pn rest).map (· + 1)

/-! ## SDR/PN resolution of `add_item` (`invoice_visual.py` lines 814-823)

    if not sdr_input:
        if pn:
            sdr = get_sdr_for(grade, pn)
        else:
            raise ValueError("Please provide either SDR or PN.")
    else:
        sdr = float(sdr_input)
        if not pn:
            pn = get_pn_for(grade, sdr)

An empty entry field is modelled as `none`. -/

inductive ResolveErr where
  | input : String → ResolveErr
  | lookup : String → ResolveErr
deriving DecidableEq, Repr

/-- The SDR/PN determination step of `add_item`: with no SDR input, a
supplied PN drives a table lookup of the SDR and no input at all is an
input error; with an SDR input the SDR is taken as given and the PN is
looked up only when its field was empty. -/
def addItemResolveSdrPn (tbl : SdrTable) (grade : String)
    (sdrInput pnInput : Option ℚ) : Except ResolveErr (ℚ × ℚ) :=
  match sdrInput with
  | none =>
      match pnInput with
      | some pn =>
          match get_sdr_for tbl grade pn with
          | Except.ok sdr => Except.ok (sdr, pn)
          | Except.error e => Except.error (ResolveErr.lookup e)
      | none => Except.error (ResolveErr.input "Please provide either SDR or PN.")
  | some sdr =>
      match pnInput with
      | none =>
          match get_pn_for tbl grade sdr with
          | Except.ok pn => Except.ok (sdr, pn)
          | Except.error e => Except.error (ResolveErr.lookup e)
      | some pn => Except.ok (sdr, pn)

/-- A small concrete pipe-series table used by the witnesses: SDR columns
17 and 11; grade PE100 with PN 10 under SDR 17 and PN 16 under SDR 11. -/
def sampleTable : SdrTable :=
  ⟨[Cell.num 17, Cell.num 11],
   [("PE100", [Cell.num 10, Cell.num 16])]⟩

/-- A table whose PE100 row repeats PN 10 under both SDR 17 and SDR 11,
preceded by a non-matching grade row; used by the C10 witness. -/
def dupPnTable : SdrTable :=
  ⟨[Cell.num 17, Cell.num 11, Cell.num 9],
   [("PE80", [Cell.num 4, Cell.num 6, Cell.num 8]),
    ("PE100", [Cell.num 10, Cell.num 10, Cell.num 16])]⟩

instance : IsTotal (ℚ × ℚ) (fun a b => a.1 ≤ b.1) :=
  ⟨fun a b => le_total a.1 b.1⟩

instance : IsTrans (ℚ × ℚ) (fun a b => a.1 ≤ b.1) :=
  ⟨fun _ _ _ hab hbc => le_trans hab hbc⟩

/-! ## Equivalence of the generator loop with the spec's bracket sum -/

lemma tieredLoop_eq_bracketSumSpec (s : ℚ) :
    ∀ l : List (ℚ × ℚ), tieredLoop s l = bracketSumSpec l s := by
  intro l
  induction l with
  | nil => simp [tieredLoop, bracketSumSpec]
  | cons hd rest ih =>
      obtain ⟨t, p⟩ := hd
      cases rest with
      | nil =>
          simp [tieredLoop, bracketSumSpec, mul_div_assoc]
      | cons hd2 rest2 =>
          obtain ⟨t2, p2⟩ := hd2
          simp only [tieredLoop, bracketSumSpec, List.map_cons, List.drop,
            List.zip_cons_cons, List.map, List.sum_cons] at ih ⊢
          rw [ih]
          congr 1
          by_cases h : s > t
          · simp [h, mul_div_assoc]
          · simp [h]

/-! ## Bounding the discount amount by the subtotal -/

lemma tieredLoop_le_max (s : ℚ) :
    ∀ (rest : List (ℚ × ℚ)) (t p : ℚ),
      List.Chain' (fun a b : ℚ × ℚ => a.1 ≤ b.1) ((t, p) :: rest) →
      (∀ r ∈ (t, p) :: rest, 0 ≤ r.2 ∧ r.2 ≤ 100) →
      tieredLoop s ((t, p) :: rest) ≤ max (s - t) 0 := by
  intro rest
  induction rest with
  | nil =>
      intro t p _ hb
      obtain ⟨hp0, hp1⟩ := hb (t, p) (by simp)
      by_cases hst : s > t
      · have h1 : tieredLoop s [(t, p)] = (s - t) * (p / 100) := by
          simp [tieredLoop, hst]
        rw [h1]
        calc (s - t) * (p / 100) ≤ (s - t) * 1 := by nlinarith
          _ = s - t := by ring
          _ ≤ max (s - t) 0 := le_max_left _ _
      · simp [tieredLoop, hst]
  | cons hd2 rs ih =>
      intro t p hc hb
      obtain ⟨t2, p2⟩ := hd2
      have ht12 : t ≤ t2 := (List.chain'_cons.mp hc).1
      have hc2 : List.Chain' (fun a b : ℚ × ℚ => a.1 ≤ b.1) ((t2, p2) :: rs) :=
        (List.chain'_cons.mp hc).2
      have hb2 : ∀ r ∈ (t2, p2) :: rs, 0 ≤ r.2 ∧ r.2 ≤ 100 :=
        fun r hr => hb r (List.mem_cons_of_mem _ hr)
      obtain ⟨hp0, hp1⟩ := hb (t, p) (by simp)
      have htail := ih t2 p2 hc2 hb2
      have hexp : tieredLoop s ((t, p) :: (t2, p2) :: rs)
          = (if s > t then min s t2 - t else 0) * (p / 100)
            + tieredLoop s ((t2, p2) :: rs) := by
        simp [tieredLoop]
      rw [hexp]
      by_cases hst : s > t
      · rw [if_pos hst]
        rcases le_or_lt t2 s with h2 | h2
        · have hmax2 : max (s - t2) 0 = s - t2 := max_eq_left (by linarith)
          have hmaxt : max (s - t) 0 = s - t := max_eq_left (by linarith)
          have hmin : min s t2 = t2 := min_eq_right h2
          rw [hmin, hmaxt]
          have hseg : (t2 - t) * (p / 100) ≤ t2 - t := by nlinarith
          rw [hmax2] at htail
          linarith
        · have hmax2 : max (s - t2) 0 = 0 := max_eq_right (by linarith)
          have hmaxt : max (s - t) 0 = s - t := max_eq_left (by linarith)
          have hmin : min s t2 = s := min_eq_left (le_of_lt h2)
          rw [hmin, hmaxt]
          have hseg : (s - t) * (p / 100) ≤ s - t := by nlinarith
          rw [hmax2] at htail
          linarith
      · rw [if_neg hst]
        have hmono : max (s - t2) 0 ≤ max (s - t) 0 := by
          apply max_le_max _ le_rfl
          linarith
        linarith [htail]

/-- C1: for every discount schedule (rows sorted ascending by threshold with
the implicit `(0,0)` floor prepended) and every subtotal, the tiered
discount amount computed by the PDF generators equals the spec's
progressive bracket sum, and for schedule rows
`[(100,2),(500,4),(700,6)]` and subtotal `800` the discount is `22`. -/
theorem C1_tiered_discount_is_progressive_bracket_sum :
    (∀ (rows : List (ℚ × ℚ)) (s : ℚ),
        tieredDiscountAmount rows s = bracketSumSpec ((0, 0) :: sortByFst rows) s)
    ∧ tieredDiscountAmount [(100, 2), (500, 4), (700, 6)] 800 = 22 := by
  constructor
  · intro rows s
    exact tieredLoop_eq_bracketSumSpec s ((0, 0) :: sortByFst rows)
  · norm_num [tieredDiscountAmount, tieredLoop, sortByFst, List.insertionSort,
      List.orderedInsert]

/-- C2: the claim says the tiered loop of `generate_pdf_with_discount` in
`create_invoice_EN.py` yields discount `0` for a positive subtotal below
the first real threshold.  The code does not: its accumulation line sits
outside the `if`, so for schedule rows `[(100,2),(500,4),(700,6)]` and
subtotal `50` it re-adds the stale segment `50` at rates 2%, 4% and 6%
and yields `6`, where the intended (and elsewhere correctly implemented)
loop yields `0`. -/
theorem C2_buggy_loop_nonzero_below_first_threshold :
    tieredDiscountAmountEN [(100, 2), (500, 4), (700, 6)] 50 = some 6
    ∧ tieredDiscountAmount [(100, 2), (500, 4), (700, 6)] 50 = 0
    ∧ (6 : ℚ) ≠ 0 := by
  refine ⟨?_, ?_, by norm_num⟩
  · norm_num [tieredDiscountAmountEN, tieredLoopEN, sortByFst,
      List.insertionSort, List.orderedInsert]
  · norm_num [tieredDiscountAmount, tieredLoop, sortByFst,
      List.insertionSort, List.orderedInsert]

/-- C3: the custom discount treats its scalar argument as a percentage of
the subtotal when `d ≤ 100` (inclusive boundary) and as an absolute
currency amount when `d > 100`; in particular
`computeCustomDiscount 100 s = s` and
`computeCustomDiscount 100.01 s = 100.01`. -/
theorem C3_custom_discount_magnitude_boundary :
    (∀ d s : ℚ, d ≤ 100 → customDiscountAmount d s = s * d / 100)
    ∧ (∀ d s : ℚ, d > 100 → customDiscountAmount d s = d)
    ∧ (∀ s : ℚ, customDiscountAmount 100 s = s)
    ∧ (∀ s : ℚ, customDiscountAmount (10001 / 100) s = 10001 / 100) := by
  refine ⟨?_, ?_, ?_, ?_⟩
  · intro d s h
    simp [customDiscountAmount, h, mul_div_assoc]
  · intro d s h
    simp [customDiscountAmount, not_le.mpr h]
  · intro s
    norm_num [customDiscountAmount]
  · intro s
    norm_num [customDiscountAmount]

/-- Witness for C3 at concrete inputs: percentage mode at `d = 40`,
absolute mode at `d = 150`, subtotal `500`. -/
theorem C3_custom_discount_magnitude_boundary_witness :
    customDiscountAmount 40 500 = 500 * 40 / 100
    ∧ customDiscountAmount 150 500 = 150 :=
  ⟨C3_custom_discount_magnitude_boundary.1 40 500 (by norm_num),
   C3_custom_discount_magnitude_boundary.2.1 150 500 (by norm_num)⟩

/-- C4: with a discount (tiered or custom) and the 10% added value both
applied, the final total equals `(subtotal - discountAmount) * 1.10`; it
equals the wrong-order formula `subtotal * 1.10 - discountAmount` only in
the degenerate case where the discount amount is `0`. -/
theorem C4_added_value_on_post_discount_net :
    (∀ (rows : List (ℚ × ℚ)) (s : ℚ),
        finalTotalTieredAddedValue rows s
          = (s - tieredDiscountAmount rows s) * (110 / 100))
    ∧ (∀ d s : ℚ,
        finalTotalCustomAddedValue d s
          = (s - customDiscountAmount d s) * (110 / 100))
    ∧ (∀ (rows : List (ℚ × ℚ)) (s : ℚ),
        (finalTotalTieredAddedValue rows s
            = s * (110 / 100) - tieredDiscountAmount rows s)
          ↔ tieredDiscountAmount rows s = 0)
    ∧ (∀ d s : ℚ,
        (finalTotalCustomAddedValue d s
            = s * (110 / 100) - customDiscountAmount d s)
          ↔ customDiscountAmount d s = 0) := by
  refine ⟨?_, ?_, ?_, ?_⟩
  · intro rows s
    unfold finalTotalTieredAddedValue
    ring
  · intro d s
    unfold finalTotalCustomAddedValue
    ring
  · intro rows s
    unfold finalTotalTieredAddedValue
    constructor <;> intro h <;> nlinarith [h]
  · intro d s
    unfold finalTotalCustomAddedValue
    constructor <;> intro h <;> nlinarith [h]

/-- C5 counterexample: the claim that the computed discount amount never
exceeds the subtotal is false for the custom discount in absolute mode:
`computeCustomDiscount(200, 50)` is `200`, which exceeds the subtotal
`50` (the code applies no clamping). -/
theorem C5_counterexample_absolute_discount_exceeds_subtotal :
    ¬ (customDiscountAmount 200 50 ≤ 50) := by
  norm_num [customDiscountAmount]

/-- C5 amended: the tiered discount never exceeds a nonnegative subtotal
when the schedule rows have nonnegative thresholds and percentages in
`[0, 100]`, and the custom discount in percentage mode (`0 ≤ d ≤ 100`)
never exceeds a nonnegative subtotal; in absolute mode (`d > 100`) the
amount is the scalar `d` itself, which can exceed the subtotal. -/
theorem C5_discount_bounded_by_subtotal_amended :
    (∀ (rows : List (ℚ × ℚ)) (s : ℚ),
        (∀ r ∈ rows, 0 ≤ r.1 ∧ 0 ≤ r.2 ∧ r.2 ≤ 100) → 0 ≤ s →
        tieredDiscountAmount rows s ≤ s)
    ∧ (∀ d s : ℚ, 0 ≤ d → d ≤ 100 → 0 ≤ s → customDiscountAmount d s ≤ s)
    ∧ (∀ d s : ℚ, d > 100 → customDiscountAmount d s = d) := by
  refine ⟨?_, ?_, ?_⟩
  · intro rows s hr hs
    unfold tieredDiscountAmount
    have hsort : List.Sorted (fun a b : ℚ × ℚ => a.1 ≤ b.1) (sortByFst rows) :=
      List.sorted_insertionSort _ rows
    have hchain : List.Chain' (fun a b : ℚ × ℚ => a.1 ≤ b.1)
        (((0 : ℚ), (0 : ℚ)) :: sortByFst rows) := by
      rw [List.chain'_cons']
      refine ⟨?_, hsort.chain'⟩
      intro b hb
      have hbmem : b ∈ sortByFst rows := List.mem_of_mem_head? hb
      have hbrows : b ∈ rows :=
        (List.perm_insertionSort (fun a b : ℚ × ℚ => a.1 ≤ b.1) rows).mem_iff.mp hbmem
      exact (hr b hbrows).1
    have hbounds : ∀ r ∈ ((0 : ℚ), (0 : ℚ)) :: sortByFst rows,
        0 ≤ r.2 ∧ r.2 ≤ 100 := by
      intro r hrr
      rcases List.mem_cons.mp hrr with h | h
      · subst h
        norm_num
      · have hrrows : r ∈ rows :=
          (List.perm_insertionSort (fun a b : ℚ × ℚ => a.1 ≤ b.1) rows).mem_iff.mp h
        exact ⟨(hr r hrrows).2.1, (hr r hrrows).2.2⟩
    have hle := tieredLoop_le_max s (sortByFst rows) 0 0 hchain hbounds
    have hmax : max (s - 0) 0 = s := by
      rw [sub_zero]
      exact max_eq_left hs
    rw [hmax] at hle
    exact hle
  · intro d s hd0 hd1 hs
    rw [customDiscountAmount, if_pos hd1]
    nlinarith
  · intro d s hd
    rw [customDiscountAmount, if_neg (not_le.mpr hd)]

/-- Witness for the amended C5 at concrete inputs: the tiered schedule
`[(100, 2)]` at subtotal `800`, percentage mode `d = 40` at subtotal
`500`, absolute mode `d = 150`. -/
theorem C5_discount_bounded_by_subtotal_amended_witness :
    tieredDiscountAmount [(100, 2)] 800 ≤ 800
    ∧ customDiscountAmount 40 500 ≤ 500
    ∧ customDiscountAmount 150 500 = 150 :=
  ⟨C5_discount_bounded_by_subtotal_amended.1 [(100, 2)] 800
      (by
        intro r hr
        rw [List.mem_singleton] at hr
        subst hr
        norm_num)
      (by norm_num),
   C5_discount_bounded_by_subtotal_amended.2.1 40 500
      (by norm_num) (by norm_num) (by norm_num),
   C5_discount_bounded_by_subtotal_amended.2.2 150 500 (by norm_num)⟩

/-! ## Loader lemmas for C6 -/

lemma loadGen_skips_malformed (row : List Cell) (h : genRowMalformed row) :
    ∀ pre post, loadThresholdRowsGen (pre ++ row :: post)
      = loadThresholdRowsGen (pre ++ post) := by
  intro pre
  induction pre with
  | nil =>
      intro post
      simp only [List.nil_append]
      rcases row with _ | ⟨a, tl⟩
      · simp [loadThresholdRowsGen]
      rcases tl with _ | ⟨b, tl2⟩
      · simp [loadThresholdRowsGen]
      have h' : a.parse = none ∨ b.parse = none := h
      rcases ha : a.parse with _ | t
      · simp [loadThresholdRowsGen, ha]
      rcases hb : b.parse with _ | p
      · simp [loadThresholdRowsGen, ha, hb]
      rw [ha] at h'
      rw [hb] at h'
      rcases h' with h' | h' <;> exact absurd h' (by simp)
  | cons r rs ih =>
      intro post
      simp only [List.cons_append]
      rcases r with _ | ⟨a, tl⟩
      · simpa [loadThresholdRowsGen] using ih post
      rcases tl with _ | ⟨b, tl2⟩
      · simpa [loadThresholdRowsGen] using ih post
      rcases ha : a.parse with _ | t
      · simpa [loadThresholdRowsGen, ha] using ih post
      rcases hb : b.parse with _ | p
      · simpa [loadThresholdRowsGen, ha, hb] using ih post
      simp [loadThresholdRowsGen, ha, hb, ih post]

lemma loadGetData_skips_short_or_empty (row : List Cell)
    (h : getDataRowSkippable row) :
    ∀ pre post, loadThresholdRowsGetData (pre ++ row :: post)
      = loadThresholdRowsGetData (pre ++ post) := by
  intro pre
  induction pre with
  | nil =>
      intro post
      simp only [List.nil_append]
      rcases row with _ | ⟨a, tl⟩
      · simp [loadThresholdRowsGetData]
      rcases tl with _ | ⟨b, tl2⟩
      · simp [loadThresholdRowsGetData]
      have h' : a.falsy = true ∨ b.falsy = true := h
      rcases h' with h' | h' <;> simp [loadThresholdRowsGetData, h']
  | cons r rs ih =>
      intro post
      simp only [List.cons_append]
      rcases r with _ | ⟨a, tl⟩
      · simpa [loadThresholdRowsGetData] using ih post
      rcases tl with _ | ⟨b, tl2⟩
      · simpa [loadThresholdRowsGetData] using ih post
      by_cases hf : (a.falsy || b.falsy) = true
      · simpa [loadThresholdRowsGetData, hf] using ih post
      rcases ha : a.parse with _ | t
      · simp [loadThresholdRowsGetData, hf, ha]
      rcases hb : b.parse with _ | p
      · simp [loadThresholdRowsGetData, hf, ha, hb]
      simp [loadThresholdRowsGetData, hf, ha, hb, ih post]

lemma loadGetData_raises_on_text (a b : Cell) (tl : List Cell)
    (hna : a.falsy = false) (hnb : b.falsy = false)
    (hbad : a.parse = none ∨ b.parse = none) :
    ∀ pre, (∀ row ∈ pre, getDataRowOk row) →
      ∀ post, loadThresholdRowsGetData (pre ++ (a :: b :: tl) :: post)
        = Except.error "Invalid discount entry" := by
  intro pre
  induction pre with
  | nil =>
      intro _ post
      simp only [List.nil_append]
      rcases ha : a.parse with _ | t
      · simp [loadThresholdRowsGetData, hna, hnb, ha]
      rcases hb : b.parse with _ | p
      · simp [loadThresholdRowsGetData, hna, hnb, ha, hb]
      rw [ha] at hbad
      rw [hb] at hbad
      rcases hbad with h | h <;> exact absurd h (by simp)
  | cons r rs ih =>
      intro hok post
      have hokr : getDataRowOk r := hok r (by simp)
      have hokrs : ∀ row ∈ rs, getDataRowOk row :=
        fun row hr => hok row (by simp [hr])
      simp only [List.cons_append]
      rcases r with _ | ⟨x, tl2⟩
      · simpa [loadThresholdRowsGetData] using ih hokrs post
      rcases tl2 with _ | ⟨y, tl3⟩
      · simpa [loadThresholdRowsGetData] using ih hokrs post
      by_cases hf : (x.falsy || y.falsy) = true
      · simpa [loadThresholdRowsGetData, hf] using ih hokrs post
      have hok' : x.falsy = true ∨ y.falsy = true
          ∨ ((∃ q, x.parse = some q) ∧ (∃ q, y.parse = some q)) := hokr
      rcases hok' with h | h | ⟨⟨t, hx⟩, ⟨p, hy⟩⟩
      · exact absurd h (by simp_all)
      · exact absurd h (by simp_all)
      simp [loadThresholdRowsGetData, hf, hx, hy, ih hokrs post, Except.map]

/-- C6 counterexample: a table whose first row has a non-numeric
threshold cell.  The claim says every loader, including `get_discount`,
skips such a row and still uses the rest; in fact `get_discount`'s loader
raises `ValueError` for the whole load (as its own docstring documents),
while the PDF generators' loader does skip the row and keeps `(100, 2)`. -/
theorem C6_counterexample_getdata_loader_raises :
    loadThresholdRowsGetData [[Cell.text, Cell.num 2], [Cell.num 100, Cell.num 2]]
      = Except.error "Invalid discount entry"
    ∧ loadThresholdRowsGen [[Cell.text, Cell.num 2], [Cell.num 100, Cell.num 2]]
      = [(100, 2)] := by
  constructor <;> rfl

/-- C6 amended: the PDF generators' threshold loaders silently skip every
row that is short or has a non-numeric cell among the first two and use
the remaining rows; `get_discount`'s loader silently skips rows that are
short or have an empty cell among the first two, but raises `ValueError`
("Invalid discount entry") on the first row whose nonempty threshold or
percentage cell is non-numeric, aborting the whole load. -/
theorem C6_loader_row_skipping_amended :
    (∀ (pre post : List (List Cell)) (row : List Cell),
        genRowMalformed row →
        loadThresholdRowsGen (pre ++ row :: post)
          = loadThresholdRowsGen (pre ++ post))
    ∧ (∀ (pre post : List (List Cell)) (row : List Cell),
        getDataRowSkippable row →
        loadThresholdRowsGetData (pre ++ row :: post)
          = loadThresholdRowsGetData (pre ++ post))
    ∧ (∀ (pre post : List (List Cell)) (a b : Cell) (tl : List Cell),
        a.falsy = false → b.falsy = false →
        (a.parse = none ∨ b.parse = none) →
        (∀ row ∈ pre, getDataRowOk row) →
        loadThresholdRowsGetData (pre ++ (a :: b :: tl) :: post)
          = Except.error "Invalid discount entry") :=
  ⟨fun pre post row h => loadGen_skips_malformed row h pre post,
   fun pre post row h => loadGetData_skips_short_or_empty row h pre post,
   fun pre post a b tl hna hnb hbad hok =>
     loadGetData_raises_on_text a b tl hna hnb hbad pre hok post⟩

/-- Witness for the amended C6 at concrete tables: a non-numeric row is
skipped by the generators' loader, an empty-cell row is skipped by
`get_discount`'s loader, and a non-numeric row makes `get_discount`'s
loader raise even with a well-formed row before it. -/
theorem C6_loader_row_skipping_amended_witness :
    loadThresholdRowsGen
        ([[Cell.num 100, Cell.num 2]] ++ [Cell.text, Cell.num 9]
          :: [[Cell.num 500, Cell.num 4]])
      = loadThresholdRowsGen
          ([[Cell.num 100, Cell.num 2]] ++ [[Cell.num 500, Cell.num 4]])
    ∧ loadThresholdRowsGetData
        ([] ++ [Cell.empty, Cell.num 9] :: [[Cell.num 100, Cell.num 2]])
      = loadThresholdRowsGetData ([] ++ [[Cell.num 100, Cell.num 2]])
    ∧ loadThresholdRowsGetData
        ([[Cell.num 100, Cell.num 2]] ++ (Cell.text :: Cell.num 9 :: []) :: [])
      = Except.error "Invalid discount entry" :=
  ⟨C6_loader_row_skipping_amended.1 [[Cell.num 100, Cell.num 2]]
      [[Cell.num 500, Cell.num 4]] [Cell.text, Cell.num 9] (Or.inl rfl),
   C6_loader_row_skipping_amended.2.1 [] [[Cell.num 100, Cell.num 2]]
      [Cell.empty, Cell.num 9] (Or.inl rfl),
   C6_loader_row_skipping_amended.2.2 [[Cell.num 100, Cell.num 2]] []
      Cell.text (Cell.num 9) [] rfl rfl (Or.inl rfl)
      (by
        intro row hr
        rw [List.mem_singleton] at hr
        subst hr
        exact Or.inr (Or.inr ⟨⟨100, rfl⟩, ⟨2, rfl⟩⟩))⟩

/-! ## Lemmas on the single-rate scan for C9 -/

lemma discountScan_all_gt (price : ℚ) :
    ∀ (l : List (ℚ × ℚ)) (acc : ℚ), (∀ r ∈ l, price < r.1) →
      discountScan price l acc = acc := by
  intro l
  induction l with
  | nil =>
      intro acc _
      rfl
  | cons hd rest ih =>
      intro acc hall
      obtain ⟨t, p⟩ := hd
      have ht : price < t := hall (t, p) (by simp)
      simp [discountScan, not_le.mpr ht]

lemma discountScan_finds_max (price : ℚ) :
    ∀ (l : List (ℚ × ℚ)),
      List.Pairwise (fun a b : ℚ × ℚ => a.1 ≤ b.1) l →
      ∀ acc : ℚ, (∃ r ∈ l, r.1 ≤ price) →
      ∃ best ∈ l, best.1 ≤ price ∧ discountScan price l acc = best.2
        ∧ ∀ q ∈ l, q.1 ≤ price → q.1 ≤ best.1 := by
  intro l
  induction l with
  | nil =>
      intro _ acc h
      exact absurd h (by simp)
  | cons hd rest ih =>
      intro hpw acc hex
      obtain ⟨t, p⟩ := hd
      have hhd : ∀ r ∈ rest, t ≤ r.1 :=
        fun r hr => (List.pairwise_cons.mp hpw).1 r hr
      have hpw2 := (List.pairwise_cons.mp hpw).2
      have ht : t ≤ price := by
        obtain ⟨r, hr, hrle⟩ := hex
        rcases List.mem_cons.mp hr with rfl | hr2
        · exact hrle
        · exact le_trans (hhd r hr2) hrle
      have hscan : discountScan price ((t, p) :: rest) acc
          = discountScan price rest p := by
        simp [discountScan, ge_iff_le, ht]
      by_cases hrest : ∃ r ∈ rest, r.1 ≤ price
      · obtain ⟨best, hbmem, hble, hbeq, hbmax⟩ := ih hpw2 p hrest
        refine ⟨best, List.mem_cons_of_mem _ hbmem, hble, ?_, ?_⟩
        · rw [hscan]
          exact hbeq
        · intro q hq hqle
          rcases List.mem_cons.mp hq with rfl | hq2
          · exact hhd best hbmem
          · exact hbmax q hq2 hqle
      · push_neg at hrest
        refine ⟨(t, p), by simp, ht, ?_, ?_⟩
        · rw [hscan]
          exact discountScan_all_gt price rest p hrest
        · intro q hq hqle
          rcases List.mem_cons.mp hq with rfl | hq2
          · exact le_rfl
          · exact absurd hqle (not_le.mpr (hrest q hq2))

/-- C9: `get_discount(order_price)` returns the percentage of the highest
threshold that is at most `order_price` among the parsed schedule rows
(after sorting ascending by threshold), and returns `0` when
`order_price` is below every threshold. -/
theorem C9_get_discount_highest_threshold :
    ∀ (rows : List (ℚ × ℚ)) (price : ℚ), rows ≠ [] →
      ((∀ r ∈ rows, price < r.1) → get_discount rows price = Except.ok 0)
      ∧ (∀ r₀ ∈ rows, r₀.1 ≤ price →
          ∃ best ∈ rows, best.1 ≤ price
            ∧ get_discount rows price = Except.ok best.2
            ∧ ∀ q ∈ rows, q.1 ≤ price → q.1 ≤ best.1) := by
  intro rows price hne
  have hperm := List.perm_insertionSort (fun a b : ℚ × ℚ => a.1 ≤ b.1) rows
  have hget : get_discount rows price
      = Except.ok (discountScan price (sortByFst rows) 0) := by
    cases rows with
    | nil => exact absurd rfl hne
    | cons hd tl => rfl
  constructor
  · intro hall
    rw [hget]
    congr 1
    exact discountScan_all_gt price (sortByFst rows) 0
      (fun r hr => hall r (hperm.mem_iff.mp hr))
  · intro r₀ hr₀ hr₀le
    have hsorted : List.Pairwise (fun a b : ℚ × ℚ => a.1 ≤ b.1) (sortByFst rows) :=
      List.sorted_insertionSort _ rows
    have hex : ∃ r ∈ sortByFst rows, r.1 ≤ price :=
      ⟨r₀, hperm.mem_iff.mpr hr₀, hr₀le⟩
    obtain ⟨best, hbmem, hble, hbeq, hbmax⟩ :=
      discountScan_finds_max price (sortByFst rows) hsorted 0 hex
    refine ⟨best, hperm.mem_iff.mp hbmem, hble, ?_, ?_⟩
    · rw [hget, hbeq]
    · intro q hq hqle
      exact hbmax q (hperm.mem_iff.mpr hq) hqle

/-- Witness for C9: rows `[(100, 2), (500, 4)]` give `0` at price `50`
(below the lowest threshold) and the highest eligible threshold's
percentage at price `600`. -/
theorem C9_get_discount_highest_threshold_witness :
    get_discount [(100, 2), (500, 4)] 50 = Except.ok 0
    ∧ ∃ best ∈ [((100 : ℚ), (2 : ℚ)), (500, 4)], best.1 ≤ 600
        ∧ get_discount [(100, 2), (500, 4)] 600 = Except.ok best.2
        ∧ ∀ q ∈ [((100 : ℚ), (2 : ℚ)), (500, 4)], q.1 ≤ 600 → q.1 ≤ best.1 :=
  ⟨(C9_get_discount_highest_threshold [(100, 2), (500, 4)] 50 (by simp)).1
      (by
        intro r hr
        rcases List.mem_cons.mp hr with rfl | hr2
        · norm_num
        · rw [List.mem_singleton] at hr2
          subst hr2
          norm_num),
   (C9_get_discount_highest_threshold [(100, 2), (500, 4)] 600 (by simp)).2
      (500, 4) (by simp) (by norm_num)⟩

/-! ## Lemmas on the pipe-series lookups (C7, C8, C10) -/

lemma findGradeRow_append (g : String) (r : String × List Cell)
    (post : List (String × List Cell)) (hr : gradeMatches g r = true) :
    ∀ pre : List (String × List Cell),
      (∀ x ∈ pre, gradeMatches g x = false) →
      findGradeRow g (pre ++ r :: post) = some r := by
  intro pre
  induction pre with
  | nil =>
      intro _
      simp only [List.nil_append, findGradeRow]
      exact List.find?_cons_of_pos _ hr
  | cons x xs ih =>
      intro hpre
      have hx : gradeMatches g x = false := hpre x (by simp)
      have hxs : ∀ y ∈ xs, gradeMatches g y = false :=
        fun y hy => hpre y (by simp [hy])
      simp only [List.cons_append, findGradeRow]
      rw [List.find?_cons_of_neg _ (by simp [hx])]
      exact ih hxs

lemma scanCellsForPn_eq (sdrList : List ℚ) (pn : ℚ) :
    ∀ (cells : List Cell) (k : Nat),
      scanCellsForPn sdrList pn k cells
        = match leftmostPnMatch pn cells with
          | none => Except.error "PN not found for grade"
          | some i =>
              match sdrList[k + i]? with
              | some sdr => Except.ok sdr
              | none => Except.error "IndexError" := by
  intro cells
  induction cells with
  | nil =>
      intro k
      rfl
  | cons c rest ih =>
      intro k
      cases c with
      | empty =>
          rw [show scanCellsForPn sdrList pn k (Cell.empty :: rest)
              = scanCellsForPn sdrList pn (k + 1) rest from rfl, ih (k + 1)]
          rw [show leftmostPnMatch pn (Cell.empty :: rest)
              = (leftmostPnMatch pn rest).map (· + 1) from rfl]
          cases hl : leftmostPnMatch pn rest with
          | none => simp
          | some i =>
              simp only [Option.map_some']
              rw [show k + 1 + i = k + (i + 1) by omega]
      | text =>
          rw [show scanCellsForPn sdrList pn k (Cell.text :: rest)
              = scanCellsForPn sdrList pn (k + 1) rest from rfl, ih (k + 1)]
          rw [show leftmostPnMatch pn (Cell.text :: rest)
              = (leftmostPnMatch pn rest).map (· + 1) from rfl]
          cases hl : leftmostPnMatch pn rest with
          | none => simp
          | some i =>
              simp only [Option.map_some']
              rw [show k + 1 + i = k + (i + 1) by omega]
      | num v =>
          by_cases hv : v = pn
          · subst hv
            simp [scanCellsForPn, leftmostPnMatch]
          · rw [show scanCellsForPn sdrList pn k (Cell.num v :: rest)
                = scanCellsForPn sdrList pn (k + 1) rest by
                  simp [scanCellsForPn, hv], ih (k + 1)]
            rw [show leftmostPnMatch pn (Cell.num v :: rest)
                = (leftmostPnMatch pn rest).map (· + 1) by
                  simp [leftmostPnMatch, hv]]
            cases hl : leftmostPnMatch pn rest with
            | none => simp
            | some i =>
                simp only [Option.map_some']
                rw [show k + 1 + i = k + (i + 1) by omega]

lemma idxOf?_getElem (x : ℚ) :
    ∀ (l : List ℚ) (j : Nat), idxOf? x l = some j →
      j < l.length ∧ l[j]? = some x := by
  intro l
  induction l with
  | nil =>
      intro j h
      exact absurd h (by simp [idxOf?])
  | cons y rest ih =>
      intro j h
      by_cases hy : y = x
      · rw [idxOf?, if_pos hy] at h
        obtain rfl : (0 : Nat) = j := by simpa using h
        subst hy
        simp
      · rw [idxOf?, if_neg hy] at h
        obtain ⟨j2, hj2, rfl⟩ := Option.map_eq_some'.mp h
        obtain ⟨hlt, hget⟩ := ih j2 hj2
        refine ⟨by simpa using Nat.succ_lt_succ hlt, ?_⟩
        simpa using hget

lemma idxOf?_of_getElem_nodup (x : ℚ) :
    ∀ l : List ℚ, l.Nodup → ∀ i : Nat, l[i]? = some x →
      idxOf? x l = some i := by
  intro l
  induction l with
  | nil =>
      intro _ i h
      simp at h
  | cons y rest ih =>
      intro hnd i h
      cases i with
      | zero =>
          have hy : y = x := by simpa using h
          simp [idxOf?, hy]
      | succ i2 =>
          have hrest : rest[i2]? = some x := by simpa using h
          have hmem : x ∈ rest := by
            obtain ⟨hlt, hget⟩ := List.getElem?_eq_some.mp hrest
            exact hget ▸ List.getElem_mem hlt
          have hy : ¬ (y = x) :=
            fun hxy => (List.nodup_cons.mp hnd).1 (hxy ▸ hmem)
          rw [idxOf?, if_neg hy, ih (List.nodup_cons.mp hnd).2 i2 hrest]
          rfl

lemma leftmostPnMatch_exists (pn : ℚ) :
    ∀ (cells : List Cell) (j : Nat), cells[j]? = some (Cell.num pn) →
      ∃ i : Nat, i ≤ j ∧ leftmostPnMatch pn cells = some i := by
  intro cells
  induction cells with
  | nil =>
      intro j h
      simp at h
  | cons c rest ih =>
      intro j h
      cases c with
      | num v =>
          by_cases hv : v = pn
          · exact ⟨0, Nat.zero_le j, by simp [leftmostPnMatch, hv]⟩
          · cases j with
            | zero =>
                have : Cell.num v = Cell.num pn := by simpa using h
                exact absurd (by injection this) hv
            | succ j2 =>
                obtain ⟨i, hij, hl⟩ := ih j2 (by simpa using h)
                exact ⟨i + 1, by omega, by simp [leftmostPnMatch, hv, hl]⟩
      | empty =>
          cases j with
          | zero => simp at h
          | succ j2 =>
              obtain ⟨i, hij, hl⟩ := ih j2 (by simpa using h)
              exact ⟨i + 1, by omega, by simp [leftmostPnMatch, hl]⟩
      | text =>
          cases j with
          | zero => simp at h
          | succ j2 =>
              obtain ⟨i, hij, hl⟩ := ih j2 (by simpa using h)
              exact ⟨i + 1, by omega, by simp [leftmostPnMatch, hl]⟩

lemma leftmostPnMatch_getElem (pn : ℚ) :
    ∀ (cells : List Cell) (i : Nat), leftmostPnMatch pn cells = some i →
      cells[i]? = some (Cell.num pn) := by
  intro cells
  induction cells with
  | nil =>
      intro i h
      simp [leftmostPnMatch] at h
  | cons c rest ih =>
      intro i h
      cases c with
      | num v =>
          by_cases hv : v = pn
          · subst hv
            rw [leftmostPnMatch, if_pos rfl] at h
            obtain rfl : (0 : Nat) = i := by simpa using h
            simp
          · rw [leftmostPnMatch, if_neg hv] at h
            obtain ⟨i2, hi2, rfl⟩ := Option.map_eq_some'.mp h
            simpa using ih i2 hi2
      | empty =>
          rw [show leftmostPnMatch pn (Cell.empty :: rest)
              = (leftmostPnMatch pn rest).map (· + 1) from rfl] at h
          obtain ⟨i2, hi2, rfl⟩ := Option.map_eq_some'.mp h
          simpa using ih i2 hi2
      | text =>
          rw [show leftmostPnMatch pn (Cell.text :: rest)
              = (leftmostPnMatch pn rest).map (· + 1) from rfl] at h
          obtain ⟨i2, hi2, rfl⟩ := Option.map_eq_some'.mp h
          simpa using ih i2 hi2

/-- C7: in `add_item`'s SDR/PN determination, supplying neither input
fails with the input error "Please provide either SDR or PN."; a supplied
SDR is authoritative and a supplied PN is kept as-is with no
table consultation or consistency check; a lone PN drives an SDR lookup
and a lone SDR drives a PN lookup. -/
theorem C7_add_item_sdr_pn_resolution :
    (∀ (tbl : SdrTable) (g : String),
        addItemResolveSdrPn tbl g none none
          = Except.error (ResolveErr.input "Please provide either SDR or PN."))
    ∧ (∀ (tbl : SdrTable) (g : String) (sdr pn : ℚ),
        addItemResolveSdrPn tbl g (some sdr) (some pn) = Except.ok (sdr, pn))
    ∧ (∀ (tbl : SdrTable) (g : String) (pn r : ℚ),
        get_sdr_for tbl g pn = Except.ok r →
        addItemResolveSdrPn tbl g none (some pn) = Except.ok (r, pn))
    ∧ (∀ (tbl : SdrTable) (g : String) (sdr r : ℚ),
        get_pn_for tbl g sdr = Except.ok r →
        addItemResolveSdrPn tbl g (some sdr) none = Except.ok (sdr, r)) := by
  refine ⟨fun tbl g => rfl, fun tbl g sdr pn => rfl, ?_, ?_⟩
  · intro tbl g pn r h
    simp [addItemResolveSdrPn, h]
  · intro tbl g sdr r h
    simp [addItemResolveSdrPn, h]

/-- Witness for C7 on `sampleTable`: both fields empty, both supplied
(with a PN that deliberately disagrees with the table), only PN, only
SDR. -/
theorem C7_add_item_sdr_pn_resolution_witness :
    addItemResolveSdrPn sampleTable "PE100" none none
      = Except.error (ResolveErr.input "Please provide either SDR or PN.")
    ∧ addItemResolveSdrPn sampleTable "PE100" (some 17) (some 99)
      = Except.ok (17, 99)
    ∧ addItemResolveSdrPn sampleTable "PE100" none (some 10)
      = Except.ok (17, 10)
    ∧ addItemResolveSdrPn sampleTable "PE100" (some 17) none
      = Except.ok (17, 10) :=
  ⟨C7_add_item_sdr_pn_resolution.1 sampleTable "PE100",
   C7_add_item_sdr_pn_resolution.2.1 sampleTable "PE100" 17 99,
   C7_add_item_sdr_pn_resolution.2.2.1 sampleTable "PE100" 10 17 rfl,
   C7_add_item_sdr_pn_resolution.2.2.2 sampleTable "PE100" 17 10 rfl⟩

/-- C8: whenever `get_pn_for(grade, sdr)` succeeds (and the parsed SDR
header values are column-unique, the table invariant), looking the
returned PN back up with `get_sdr_for` succeeds with some SDR whose
`get_pn_for` lookup returns the same PN:
`pnFor(g, sdrFor(g, pnFor(g, sdr))) = pnFor(g, sdr)`. -/
theorem C8_sdr_pn_round_trip :
    ∀ (tbl : SdrTable) (g : String) (sdr pn : ℚ) (sdrList : List ℚ),
      parseHeader tbl.header = Except.ok sdrList →
      sdrList.Nodup →
      get_pn_for tbl g sdr = Except.ok pn →
      ∃ sdr2 : ℚ, get_sdr_for tbl g pn = Except.ok sdr2
        ∧ get_pn_for tbl g sdr2 = Except.ok pn := by
  intro tbl g sdr pn sdrList hh hnd h1
  unfold get_pn_for at h1
  simp only [hh] at h1
  cases hj : idxOf? sdr sdrList with
  | none =>
      simp only [hj] at h1
      exact absurd h1 (by simp)
  | some j =>
      simp only [hj] at h1
      cases hfind : findGradeRow g tbl.rows with
      | none =>
          simp only [hfind] at h1
          exact absurd h1 (by simp)
      | some r =>
          simp only [hfind] at h1
          cases hcell : r.2[j]? with
          | none =>
              simp only [hcell] at h1
              exact absurd h1 (by simp)
          | some c =>
              simp only [hcell] at h1
              cases c with
              | empty => exact absurd h1 (by simp)
              | text => exact absurd h1 (by simp)
              | num v =>
                  have hv : v = pn := by simpa using h1
                  subst hv
                  obtain ⟨i, hij, hleft⟩ := leftmostPnMatch_exists v r.2 j hcell
                  have hjlen : j < sdrList.length := (idxOf?_getElem sdr sdrList j hj).1
                  have hilen : i < sdrList.length := lt_of_le_of_lt hij hjlen
                  refine ⟨sdrList[i], ?_, ?_⟩
                  · unfold get_sdr_for
                    simp only [hh, hfind, scanCellsForPn_eq sdrList v r.2 0,
                      hleft]
                    simp [List.getElem?_eq_getElem hilen]
                  · unfold get_pn_for
                    simp only [hh,
                      idxOf?_of_getElem_nodup sdrList[i] sdrList hnd i
                        (List.getElem?_eq_getElem hilen),
                      hfind, leftmostPnMatch_getElem v r.2 i hleft]

/-- Witness for C8 on `sampleTable`: `get_pn_for "PE100" 17 = 10`, and
the round trip through `get_sdr_for` returns an SDR that again resolves
to PN `10`. -/
theorem C8_sdr_pn_round_trip_witness :
    ∃ sdr2 : ℚ, get_sdr_for sampleTable "PE100" 10 = Except.ok sdr2
      ∧ get_pn_for sampleTable "PE100" sdr2 = Except.ok 10 :=
  C8_sdr_pn_round_trip sampleTable "PE100" 17 10 [17, 11] rfl
    (by norm_num) rfl

/-- C10: `get_sdr_for` consults only the header and the first row
matching the requested grade (rows before it that do not match, and all
rows after it, are irrelevant), and when that row carries the requested
PN in several columns it returns the parsed header value at the leftmost
matching cell index. -/
theorem C10_get_sdr_for_leftmost_and_row_local :
    (∀ (header : List Cell) (pre post : List (String × List Cell))
        (r : String × List Cell) (g : String) (pn : ℚ),
        (∀ x ∈ pre, gradeMatches g x = false) →
        gradeMatches g r = true →
        get_sdr_for ⟨header, pre ++ r :: post⟩ g pn
          = get_sdr_for ⟨header, [r]⟩ g pn)
    ∧ (∀ (header : List Cell) (rows : List (String × List Cell))
        (g : String) (pn : ℚ) (sdrList : List ℚ) (r : String × List Cell)
        (i : Nat) (sdr : ℚ),
        parseHeader header = Except.ok sdrList →
        findGradeRow g rows = some r →
        leftmostPnMatch pn r.2 = some i →
        sdrList[i]? = some sdr →
        get_sdr_for ⟨header, rows⟩ g pn = Except.ok sdr) := by
  constructor
  · intro header pre post r g pn hpre hr
    have h1 : findGradeRow g (pre ++ r :: post) = some r :=
      findGradeRow_append g r post hr pre hpre
    have h2 : findGradeRow g [r] = some r :=
      findGradeRow_append g r [] hr [] (by simp)
    unfold get_sdr_for
    cases hh : parseHeader header with
    | error e => rfl
    | ok sdrList =>
        rw [h1, h2]
  · intro header rows g pn sdrList r i sdr hh hfind hleft hget
    unfold get_sdr_for
    simp only [hh, hfind, scanCellsForPn_eq sdrList pn r.2 0, hleft,
      Nat.zero_add]
    rw [hget]

/-- Witness for C10 on `dupPnTable`: the PE100 row repeats PN `10` under
SDR columns 17 and 11; the lookup ignores the preceding PE80 row and
returns the leftmost column's SDR, `17`. -/
theorem C10_get_sdr_for_leftmost_and_row_local_witness :
    get_sdr_for ⟨dupPnTable.header,
        [("PE80", [Cell.num 4, Cell.num 6, Cell.num 8])]
          ++ ("PE100", [Cell.num 10, Cell.num 10, Cell.num 16]) :: []⟩
        "PE100" 10
      = get_sdr_for ⟨dupPnTable.header,
          [("PE100", [Cell.num 10, Cell.num 10, Cell.num 16])]⟩ "PE100" 10
    ∧ get_sdr_for dupPnTable "PE100" 10 = Except.ok 17 :=
  ⟨C10_get_sdr_for_leftmost_and_row_local.1 dupPnTable.header
      [("PE80", [Cell.num 4, Cell.num 6, Cell.num 8])] []
      ("PE100", [Cell.num 10, Cell.num 10, Cell.num 16]) "PE100" 10
      (by
        intro x hx
        rw [List.mem_singleton] at hx
        subst hx
        rfl)
      rfl,
   C10_get_sdr_for_leftmost_and_row_local.2 dupPnTable.header
      dupPnTable.rows "PE100" 10 [17, 11, 9]
      ("PE100", [Cell.num 10, Cell.num 10, Cell.num 16]) 0 17
      rfl rfl rfl rfl⟩

end InvoiceApp
